import Mathlib

/-!
Shallow embedding of `server.py` (perseoq/meow): an incremental
crawl-and-index engine for static HTML pages.

Python strings are modelled as `List Char`; `None`-able values as
`Option`; a caught Python exception as `Option.none` threaded through the
`Option` monad; the SQLite `pages` table as an association list of rows;
wall-clock timestamps as abstract `Nat` values.
-/

/-- Python strings, modelled as lists of characters. -/
abbrev Str := List Char

/-- Python `str.strip()`: drop leading and trailing whitespace. -/
def pystrip (s : Str) : Str :=
  ((s.dropWhile Char.isWhitespace).reverse.dropWhile Char.isWhitespace).reverse

/-- The parsed document (`BeautifulSoup(...)`) restricted to the queries
`server.py` performs on it.
`title = none` models a document with no `<title>` element;
`title = some none` a `<title>` whose `.string` is Python `None`
(empty or non-string contents); `metaDesc`/`metaKeywords` likewise:
`none` = tag absent, `some none` = tag present without a `content`
attribute (so `tag['content']` raises `KeyError`);
`h1`/`firstP` hold `get_text()` of the first `<h1>`/`<p>` when present. -/
structure Soup where
  title : Option (Option Str)
  metaDesc : Option (Option Str)
  metaKeywords : Option (Option Str)
  h1 : Option Str
  firstP : Option Str
deriving DecidableEq, Repr

/-- The title/description/keywords triple returned by the extractor. -/
structure Metadata where
  title : Str
  description : Str
  keywords : Str
deriving DecidableEq, Repr

/-- The all-empty triple returned by the extractor's error branch. -/
def emptyMetadata : Metadata := ⟨[], [], []⟩

/-- `tag['content'] if tag else ''`: absent tag gives the empty string,
a tag without the attribute raises (`Option.none`). -/
def contentAttr (tag : Option (Option Str)) : Option Str :=
  match tag with
  | none => some []
  | some c => c

/-- The three-character ellipsis marker `'...'`. -/
def ellipsis : Str := ['.', '.', '.']

/-- The body of `extract_metadata`'s `try` block, on an already parsed
document. Returns `none` where the Python code raises (a `KeyError` from a
`content` lookup, or `AttributeError` from `None.strip()`). -/
def extractCore (s : Soup) : Option Metadata := do
  let title : Option Str :=
    match s.title with
    | none => some []
    | some ts => ts
  let description : Str ← contentAttr s.metaDesc
  let keywords : Str ← contentAttr s.metaKeywords
  let (title, description) :=
    if description = [] then
      let title := match s.h1 with | some h => some h | none => title
      let description := match s.firstP with | some p => p | none => description
      let description :=
        if description.length > 120 then description.take 117 ++ ellipsis
        else description
      (title, description)
    else (title, description)
  let t : Str ← title
  pure ⟨pystrip t, pystrip description, pystrip keywords⟩

/-- `extract_metadata`: `none` input models a read/parse failure raised
before the document exists; any exception yields the all-empty triple. -/
def extract_metadata (doc : Option Soup) : Metadata :=
  match doc with
  | none => emptyMetadata
  | some s => (extractCore s).getD emptyMetadata

/-- The result of `os.stat`: modification time and byte size. -/
structure Stat where
  st_mtime : Nat
  st_size : Nat
deriving DecidableEq, Repr

/-- `calculate_file_hash`: `f"{stat.st_mtime}-{stat.st_size}"`, or the
empty string when `os.stat` raises (modelled by a `none` stat). -/
def calculate_file_hash (st : Option Stat) : Str :=
  match st with
  | none => []
  | some s => (Nat.repr s.st_mtime).data ++ ['-'] ++ (Nat.repr s.st_size).data

/-- One row of the `pages` table (the AUTOINCREMENT `id` is not modelled;
no claim mentions it). -/
structure Row where
  path : Str
  title : Str
  description : Str
  keywords : Str
  last_updated : Nat
  file_hash : Str
deriving DecidableEq, Repr

/-- The `pages` table, in insertion order. -/
abbrev Db := List Row

/-- `SELECT file_hash FROM pages WHERE path = ?` followed by `fetchone`:
the hash of the first row whose path matches, if any. -/
def lookupHash : Db → Str → Option Str
  | [], _ => none
  | r :: rest, p => if r.path = p then some r.file_hash else lookupHash rest p

/-- `INSERT OR REPLACE`: the UNIQUE constraint on `path` deletes any
conflicting row, then the new row is appended. -/
def insertOrReplace (db : Db) (r : Row) : Db :=
  db.filter (fun q => ¬ q.path = r.path) ++ [r]

/-- `update_or_insert_page(cursor, path, metadata, file_hash)`: writes
(with `last_updated := now`) unless a stored row for `path` carries the
same hash; returns the updated table and whether a write occurred. -/
def update_or_insert_page (db : Db) (path : Str) (md : Metadata)
    (file_hash : Str) (now : Nat) : Db × Bool :=
  match lookupHash db path with
  | some existing_hash =>
    if existing_hash = file_hash then (db, false)
    else
      (insertOrReplace db ⟨path, md.title, md.description, md.keywords, now, file_hash⟩, true)
  | none =>
      (insertOrReplace db ⟨path, md.title, md.description, md.keywords, now, file_hash⟩, true)

/-- One filesystem entry as the crawl sees it: its web path (relative to
the content root), the parse outcome of its markup, and its stat outcome. -/
structure FsEntry where
  path : Str
  doc : Option Soup
  stat : Option Stat
deriving DecidableEq, Repr

/-- The body of `crawl_pages`'s loop for one `index.html` entry, acting on
the accumulator `(table, updated_count, total_count)`: extract metadata,
fingerprint, upsert, bump `updated_count` when a write occurred, always
bump `total_count`. -/
def crawlStep (now : Nat) (acc : Db × Nat × Nat) (e : FsEntry) : Db × Nat × Nat :=
  let md := extract_metadata e.doc
  let fh := calculate_file_hash e.stat
  let r := update_or_insert_page acc.1 e.path md fh now
  (r.1, (if r.2 then acc.2.1 + 1 else acc.2.1), acc.2.2 + 1)

/-- `crawl_pages`: walk the listed entries, upsert each, and report
`(new table, updated_count, total_count)`. The `fs` list is the sequence
of files named `index.html` produced by `os.walk`; `now` abstracts
`datetime.now()` during this crawl. -/
def crawl_pages (fs : List FsEntry) (db : Db) (now : Nat) : Db × Nat × Nat :=
  fs.foldl (crawlStep now) (db, 0, 0)

/-- The timeline of `run_periodic_crawler(interval)`: `schedule t0 interval
dur n` is the `(start, end)` pair of the `n`-th crawl, where `dur n` is
that crawl's duration. The loop sets `next_run = time.time() + interval`
BEFORE calling `crawl_pages()`, then sleeps until `time.time() >= next_run`
(a no-op when the crawl already overran), so the next crawl starts at
`max (end of previous) (start of previous + interval)`. -/
def schedule (t0 interval : Nat) (dur : Nat → Nat) : Nat → Nat × Nat
  | 0 => (t0, t0 + dur 0)
  | n + 1 =>
    let se := schedule t0 interval dur n
    let s := max se.2 (se.1 + interval)
    (s, s + dur (n + 1))

/-- Python `int(s)` on a string: optional surrounding whitespace, an
optional sign, then one or more decimal digits; `none` models the
`ValueError` branch. -/
def pyInt (s : Str) : Option Int :=
  let core : Str → Option Nat := fun t =>
    if t ≠ [] ∧ t.all Char.isDigit then
      some (t.foldl (fun acc c => acc * 10 + (c.toNat - '0'.toNat)) 0)
    else none
  match pystrip s with
  | '+' :: rest => (core rest).map (fun n => (n : Int))
  | '-' :: rest => (core rest).map (fun n => -(n : Int))
  | t => (core t).map (fun n => (n : Int))

/-- ASCII-only lower-casing, as SQLite's default `LIKE` applies to the
pattern and the text. -/
def asciiLower (c : Char) : Char :=
  if 'A' ≤ c ∧ c ≤ 'Z' then Char.ofNat (c.toNat + 32) else c

/-- SQLite `LIKE` matching: `%` matches any run, `_` any one character,
other characters match ASCII-case-insensitively. -/
def likeMatch : Str → Str → Bool
  | [], [] => true
  | '%' :: ps, [] => likeMatch ps []
  | '%' :: ps, c :: s => likeMatch ps (c :: s) || likeMatch ('%' :: ps) s
  | '_' :: ps, _ :: s => likeMatch ps s
  | p :: ps, c :: s => asciiLower p = asciiLower c && likeMatch ps s
  | _, _ => false
termination_by p s => (s.length, p.length)

/-- The `WHERE title LIKE ? OR description LIKE ? OR keywords LIKE ?`
predicate with the pattern `f"%{query}%"`. -/
def matchesQuery (query : Str) (r : Row) : Bool :=
  let pat := '%' :: (query ++ ['%'])
  likeMatch pat r.title || likeMatch pat r.description || likeMatch pat r.keywords

/-- Byte-wise (code-point-wise) string order, SQLite's BINARY collation. -/
def strLe (a b : Str) : Bool :=
  match a, b with
  | [], _ => true
  | _ :: _, [] => false
  | c :: a, d :: b => c.toNat < d.toNat || (c.toNat = d.toNat && strLe a b)

/-- Insert a row into a list sorted by title. -/
def insertByTitle (r : Row) : List Row → List Row
  | [] => [r]
  | q :: rest =>
    if strLe r.title q.title then r :: q :: rest
    else q :: insertByTitle r rest

/-- `ORDER BY title` (insertion sort; tie order among equal titles is
unspecified by SQLite and irrelevant to the claims). -/
def sortByTitle (l : List Row) : List Row :=
  l.foldr insertByTitle []

/-- What the `/search` handler passes to the template. -/
structure SearchResult where
  results : List (Str × Str × Str)
  query : Str
  page : Int
  total_pages : Nat
  total_records : Nat
deriving DecidableEq, Repr

/-- The rows the paginated SELECT returns: `LIMIT 30 OFFSET offset`, where
SQLite clamps a negative OFFSET to zero. -/
def pageRows (matching : List Row) (offset : Int) : List (Str × Str × Str) :=
  (((sortByTitle matching).drop offset.toNat).take 30).map
    (fun r => (r.path, r.title, r.description))

/-- The rows the two COUNT/SELECT branches of `/search` range over: every
row when the (stripped) query is empty, else the rows matching the LIKE
filter. -/
def searchMatching (db : Db) (query : Str) : List Row :=
  if query = [] then db else db.filter (matchesQuery query)

/-- The `/search` route: strip the query, parse the page number
(`ValueError` defaults it to 1), filter (or take all rows when the query
is empty), count, paginate, and compute `total_pages` by ceiling
division. -/
def search (db : Db) (qRaw pageStr : Str) : SearchResult :=
  let query := pystrip qRaw
  let page : Int := (pyInt pageStr).getD 1
  let per_page : Nat := 30
  let offset : Int := (page - 1) * (per_page : Int)
  let matching := searchMatching db query
  let total_records := matching.length
  let results := pageRows matching offset
  let total_pages := (total_records + per_page - 1) / per_page
  ⟨results, query, page, total_pages, total_records⟩

/-- The title as parsed by steps 2 of the extractor, before the fallback:
the title element's string when it has one, else empty (the absent and the
`None`-string cases both display as empty; the latter never reaches a
normal return). -/
def parsedTitle (s : Soup) : Str :=
  match s.title with
  | none => []
  | some none => []
  | some (some ts) => ts

/-- The keywords the extractor parses in step 4 (the `KeyError` case never
reaches a normal return). -/
def parsedKeywords (s : Soup) : Str :=
  match s.metaKeywords with
  | none => []
  | some none => []
  | some (some k) => k

/-- The description produced by the step-5 fallback from the first
paragraph: its text, truncated to 117 characters plus the ellipsis when
longer than 120; empty when no paragraph exists. -/
def fallbackDescription : Option Str → Str
  | none => []
  | some p => if p.length > 120 then p.take 117 ++ ellipsis else p

/-! ### Basic lemmas about the index store -/

theorem lookupHash_insertOrReplace (db : Db) (r : Row) (p : Str) :
    lookupHash (insertOrReplace db r) p =
      if r.path = p then some r.file_hash else lookupHash db p := by
  induction db with
  | nil => simp [insertOrReplace, lookupHash]
  | cons q rest ih =>
    by_cases hq : q.path = r.path
    · have h1 : insertOrReplace (q :: rest) r = insertOrReplace rest r := by
        simp [insertOrReplace, List.filter_cons, hq]
      rw [h1, ih]
      by_cases hrp : r.path = p
      · simp [hrp]
      · have hqp : ¬ q.path = p := fun h => hrp (hq.symm.trans h)
        simp [hrp, lookupHash, hqp]
    · have h1 : insertOrReplace (q :: rest) r = q :: insertOrReplace rest r := by
        simp [insertOrReplace, List.filter_cons, hq]
      rw [h1]
      by_cases hqp : q.path = p
      · have hrp : ¬ r.path = p := fun h => hq (by rw [hqp, h])
        simp [lookupHash, hqp, hrp]
      · simp [lookupHash, hqp, ih]

theorem update_noop_of_same_hash (db : Db) (p : Str) (md : Metadata)
    (fh : Str) (now : Nat) (h : lookupHash db p = some fh) :
    update_or_insert_page db p md fh now = (db, false) := by
  simp [update_or_insert_page, h]

theorem lookupHash_after_update (db : Db) (p : Str) (md : Metadata)
    (fh : Str) (now : Nat) :
    lookupHash (update_or_insert_page db p md fh now).1 p = some fh := by
  unfold update_or_insert_page
  cases h : lookupHash db p with
  | none => simp [lookupHash_insertOrReplace, h]
  | some existing =>
    by_cases he : existing = fh
    · simp [he, h]
    · simp [he, lookupHash_insertOrReplace]

theorem lookupHash_after_update_other (db : Db) (p q : Str) (md : Metadata)
    (fh : Str) (now : Nat) (hne : p ≠ q) :
    lookupHash (update_or_insert_page db p md fh now).1 q = lookupHash db q := by
  unfold update_or_insert_page
  cases h : lookupHash db p with
  | none => simp [lookupHash_insertOrReplace, hne]
  | some existing =>
    by_cases he : existing = fh
    · simp [he]
    · simp [he, lookupHash_insertOrReplace, hne]

/-! ### Lemmas about the crawl loop -/

/-- The upsert `crawl_pages` performs for the entry `e` on the table
`db` at time `t`. -/
def entryUpsert (db : Db) (e : FsEntry) (t : Nat) : Db × Bool :=
  update_or_insert_page db e.path (extract_metadata e.doc)
    (calculate_file_hash e.stat) t

theorem crawl_counters (fs : List FsEntry) (t : Nat) :
    ∀ (db : Db) (u n : Nat),
      fs.foldl (crawlStep t) (db, u, n) =
        ((crawl_pages fs db t).1, u + (crawl_pages fs db t).2.1,
          n + (crawl_pages fs db t).2.2) := by
  induction fs with
  | nil => intro db u n; simp [crawl_pages]
  | cons e fs ih =>
    intro db u n
    have hL : (e :: fs).foldl (crawlStep t) (db, u, n) =
        fs.foldl (crawlStep t) (crawlStep t (db, u, n) e) := rfl
    have hR : crawl_pages (e :: fs) db t =
        fs.foldl (crawlStep t) (crawlStep t (db, 0, 0) e) := rfl
    have hs1 : crawlStep t (db, u, n) e =
        ((entryUpsert db e t).1,
          (if (entryUpsert db e t).2 then u + 1 else u), n + 1) := rfl
    have hs0 : crawlStep t (db, 0, 0) e =
        ((entryUpsert db e t).1,
          (if (entryUpsert db e t).2 then 1 else 0), 1) := rfl
    rw [hL, hR, hs1, hs0,
      ih (entryUpsert db e t).1 (if (entryUpsert db e t).2 then u + 1 else u) (n + 1),
      ih (entryUpsert db e t).1 (if (entryUpsert db e t).2 then 1 else 0) 1]
    simp only [Prod.mk.injEq, true_and]
    refine ⟨?_, by omega⟩
    cases (entryUpsert db e t).2
    all_goals simp
    all_goals omega

theorem crawl_cons (e : FsEntry) (fs : List FsEntry) (db : Db) (t : Nat) :
    crawl_pages (e :: fs) db t =
      ((crawl_pages fs (entryUpsert db e t).1 t).1,
        (if (entryUpsert db e t).2 then 1 else 0) +
          (crawl_pages fs (entryUpsert db e t).1 t).2.1,
        1 + (crawl_pages fs (entryUpsert db e t).1 t).2.2) := by
  have hR : crawl_pages (e :: fs) db t =
      fs.foldl (crawlStep t) (crawlStep t (db, 0, 0) e) := rfl
  have hs0 : crawlStep t (db, 0, 0) e =
      ((entryUpsert db e t).1,
        (if (entryUpsert db e t).2 then 1 else 0), 1) := rfl
  rw [hR, hs0,
    crawl_counters fs t (entryUpsert db e t).1 (if (entryUpsert db e t).2 then 1 else 0) 1]

theorem crawl_lookup_other (fs : List FsEntry) (t : Nat) :
    ∀ (db : Db) (p : Str), p ∉ fs.map FsEntry.path →
      lookupHash (crawl_pages fs db t).1 p = lookupHash db p := by
  induction fs with
  | nil => intro db p _; rfl
  | cons e fs ih =>
    intro db p hp
    simp only [List.map_cons, List.mem_cons, not_or] at hp
    rw [crawl_cons]
    rw [ih _ _ hp.2]
    exact lookupHash_after_update_other _ _ _ _ _ _ (fun h => hp.1 h.symm)

theorem crawl_stores_hashes (fs : List FsEntry) (t : Nat) :
    ∀ (db : Db), (fs.map FsEntry.path).Nodup → ∀ e ∈ fs,
      lookupHash (crawl_pages fs db t).1 e.path =
        some (calculate_file_hash e.stat) := by
  induction fs with
  | nil => intro db _ e he; cases he
  | cons e0 fs ih =>
    intro db hnd e he
    rw [List.map_cons, List.nodup_cons] at hnd
    rw [crawl_cons]
    rcases List.mem_cons.mp he with he | he
    · subst he
      show lookupHash (crawl_pages fs (entryUpsert db e t).1 t).1 e.path = _
      rw [crawl_lookup_other fs t _ _ hnd.1]
      exact lookupHash_after_update _ _ _ _ _
    · exact ih _ hnd.2 e he

theorem crawl_noop_of_stored (fs : List FsEntry) (t : Nat) :
    ∀ (db : Db),
      (∀ e ∈ fs, lookupHash db e.path = some (calculate_file_hash e.stat)) →
      crawl_pages fs db t = (db, 0, fs.length) := by
  induction fs with
  | nil => intro db _; rfl
  | cons e fs ih =>
    intro db hst
    rw [crawl_cons]
    have hnoop : entryUpsert db e t = (db, false) :=
      update_noop_of_same_hash db e.path _ _ t (hst e (List.mem_cons_self e fs))
    rw [hnoop]
    rw [ih db (fun x hx => hst x (List.mem_cons_of_mem e hx))]
    simp [List.length_cons]
    omega

theorem update_wrote_iff (db : Db) (p : Str) (md : Metadata) (fh : Str)
    (now : Nat) :
    (update_or_insert_page db p md fh now).2 = true ↔
      lookupHash db p ≠ some fh := by
  unfold update_or_insert_page
  cases h : lookupHash db p with
  | none => simp
  | some existing => by_cases he : existing = fh <;> simp [he]

theorem update_writes_row (db : Db) (p : Str) (md : Metadata) (fh : Str)
    (now : Nat) (hw : (update_or_insert_page db p md fh now).2 = true) :
    (update_or_insert_page db p md fh now).1 =
      insertOrReplace db ⟨p, md.title, md.description, md.keywords, now, fh⟩ := by
  unfold update_or_insert_page at hw ⊢
  cases h : lookupHash db p with
  | none => rfl
  | some existing =>
    by_cases he : existing = fh
    · rw [h] at hw; simp [he] at hw
    · simp [h, he]

/-! ### The claims -/

/-- C1. `update_or_insert_page` writes exactly when no record exists for
the path or the stored fingerprint differs from the given one; it returns
`true` exactly when a write occurred; a write replaces the row for `path`
with one carrying the given metadata, the given fingerprint and
`last_updated = now`; when the stored fingerprint equals the given one the
table — every record, `last_updated` included — is returned untouched. -/
theorem C1_upsert_contract (db : Db) (path : Str) (md : Metadata)
    (fh : Str) (now : Nat) :
    ((update_or_insert_page db path md fh now).2 = true ↔
      (lookupHash db path = none ∨
        ∃ h, lookupHash db path = some h ∧ h ≠ fh)) ∧
    ((update_or_insert_page db path md fh now).2 = true →
      (update_or_insert_page db path md fh now).1 =
        insertOrReplace db ⟨path, md.title, md.description, md.keywords, now, fh⟩) ∧
    ((update_or_insert_page db path md fh now).2 = false →
      (update_or_insert_page db path md fh now).1 = db) := by
  unfold update_or_insert_page
  cases h : lookupHash db path with
  | none => simp
  | some existing =>
    by_cases he : existing = fh
    · simp [he]
    · simp [he]

/-- Witness for C1: on the empty table a write occurs, returns `true`, and
the inserted row is stamped with the given time. -/
theorem C1_upsert_contract_witness :
    (update_or_insert_page [] ['p'] ⟨['t'], ['d'], ['k']⟩ ['h'] 42).2 = true ∧
    (update_or_insert_page [] ['p'] ⟨['t'], ['d'], ['k']⟩ ['h'] 42).1 =
      insertOrReplace [] ⟨['p'], ['t'], ['d'], ['k'], 42, ['h']⟩ := by
  have h := C1_upsert_contract [] ['p'] ⟨['t'], ['d'], ['k']⟩ ['h'] 42
  have hw : (update_or_insert_page [] ['p'] ⟨['t'], ['d'], ['k']⟩ ['h'] 42).2 = true :=
    h.1.mpr (Or.inl rfl)
  exact ⟨hw, h.2.1 hw⟩

/-- C2. With no filesystem change between two crawls (same entry list,
same stats, same documents) and distinct paths among the listed files, the
second crawl reports zero updates and a total equal to the number of
pages, and returns the table of the first crawl unchanged — every record,
`last_updated` included. -/
theorem C2_crawl_idempotent (fs : List FsEntry) (db : Db) (t1 t2 : Nat)
    (hnd : (fs.map FsEntry.path).Nodup) :
    crawl_pages fs (crawl_pages fs db t1).1 t2 =
      ((crawl_pages fs db t1).1, 0, fs.length) :=
  crawl_noop_of_stored fs t2 _ (fun e he => crawl_stores_hashes fs t1 db hnd e he)

/-- Witness for C2: two distinct pages, second crawl at a later time is a
no-op with zero updates. -/
theorem C2_crawl_idempotent_witness :
    (([⟨['a'], none, some ⟨1, 2⟩⟩, ⟨['b'], none, none⟩] : List FsEntry).map
      FsEntry.path).Nodup ∧
    crawl_pages [⟨['a'], none, some ⟨1, 2⟩⟩, ⟨['b'], none, none⟩]
        (crawl_pages [⟨['a'], none, some ⟨1, 2⟩⟩, ⟨['b'], none, none⟩] [] 3).1 7 =
      ((crawl_pages [⟨['a'], none, some ⟨1, 2⟩⟩, ⟨['b'], none, none⟩] [] 3).1, 0, 2) := by
  have hnd : (([⟨['a'], none, some ⟨1, 2⟩⟩, ⟨['b'], none, none⟩] : List FsEntry).map
      FsEntry.path).Nodup := by decide
  exact ⟨hnd, C2_crawl_idempotent _ [] 3 7 hnd⟩

/-- C3 counterexample: for a page whose stat fails, the fingerprint is the
empty sentinel, yet the crawl does NOT skip writing — here it counts one
update and overwrites the existing record for that path. -/
theorem C3_counterexample :
    calculate_file_hash none = [] ∧
    (crawl_pages [⟨['p'], none, none⟩]
      [⟨['p'], ['t'], ['d'], ['k'], 9, ['h']⟩] 5).2.1 = 1 ∧
    (crawl_pages [⟨['p'], none, none⟩]
      [⟨['p'], ['t'], ['d'], ['k'], 9, ['h']⟩] 5).1 ≠
      [⟨['p'], ['t'], ['d'], ['k'], 9, ['h']⟩] := by decide

/-- C3 amended: when the stat fails the fingerprint function returns the
empty sentinel, but the crawl engine does not skip the entry: it upserts
with the empty fingerprint, writing exactly when no record exists for the
path or the stored fingerprint is not itself empty. -/
theorem C3_empty_fingerprint_still_written (db : Db) (e : FsEntry) (t : Nat)
    (hstat : e.stat = none) :
    calculate_file_hash e.stat = [] ∧
    crawl_pages [e] db t =
      ((entryUpsert db e t).1, (if (entryUpsert db e t).2 then 1 else 0), 1) ∧
    ((entryUpsert db e t).2 = true ↔ lookupHash db e.path ≠ some []) := by
  refine ⟨by rw [hstat]; rfl, ?_, ?_⟩
  · rw [crawl_cons]
    simp [crawl_pages]
  · have hfh : calculate_file_hash e.stat = [] := by rw [hstat]; rfl
    rw [show entryUpsert db e t =
        update_or_insert_page db e.path (extract_metadata e.doc) [] t from by
      unfold entryUpsert; rw [hfh]]
    exact update_wrote_iff db e.path _ [] t

/-- Witness for C3 amended: a vanished file over a table storing a
non-empty fingerprint for its path gets rewritten (one update counted). -/
theorem C3_empty_fingerprint_still_written_witness :
    calculate_file_hash (FsEntry.mk ['p'] none none).stat = [] ∧
    crawl_pages [⟨['p'], none, none⟩] [⟨['p'], ['t'], ['d'], ['k'], 9, ['h']⟩] 5 =
      ((entryUpsert [⟨['p'], ['t'], ['d'], ['k'], 9, ['h']⟩] ⟨['p'], none, none⟩ 5).1,
        (if (entryUpsert [⟨['p'], ['t'], ['d'], ['k'], 9, ['h']⟩] ⟨['p'], none, none⟩ 5).2
          then 1 else 0), 1) ∧
    ((entryUpsert [⟨['p'], ['t'], ['d'], ['k'], 9, ['h']⟩] ⟨['p'], none, none⟩ 5).2 = true ↔
      lookupHash [⟨['p'], ['t'], ['d'], ['k'], 9, ['h']⟩] ['p'] ≠ some []) :=
  C3_empty_fingerprint_still_written
    [⟨['p'], ['t'], ['d'], ['k'], 9, ['h']⟩] ⟨['p'], none, none⟩ 5 rfl

/-- C4 counterexample: a crawl over a single page whose metadata
extraction fails (unreadable markup) still counts that page as updated
(updated = 1, not 0), because the extractor swallows the failure and the
empty metadata is upserted. -/
theorem C4_counterexample :
    extract_metadata ((⟨['p'], none, some ⟨1, 2⟩⟩ : FsEntry).doc) = emptyMetadata ∧
    (crawl_pages [⟨['p'], none, some ⟨1, 2⟩⟩] [] 5).2.1 = 1 ∧
    (crawl_pages [⟨['p'], none, some ⟨1, 2⟩⟩] [] 5).2.2 = 1 := by decide

/-- C4 amended: a page whose extraction fails yields the all-empty
metadata triple; the page is still counted in total and the traversal
continues over the remaining entries, but the page is NOT excluded from
the updated count: it counts as updated exactly when its upsert writes
(no record for the path, or a differing stored fingerprint), and the row
then written carries the empty metadata. -/
theorem C4_extraction_failure_handling (db : Db) (e : FsEntry)
    (fs : List FsEntry) (t : Nat) (hdoc : e.doc = none) :
    extract_metadata e.doc = emptyMetadata ∧
    crawl_pages (e :: fs) db t =
      ((crawl_pages fs (entryUpsert db e t).1 t).1,
        (if (entryUpsert db e t).2 then 1 else 0) +
          (crawl_pages fs (entryUpsert db e t).1 t).2.1,
        1 + (crawl_pages fs (entryUpsert db e t).1 t).2.2) ∧
    ((entryUpsert db e t).2 = true ↔
      lookupHash db e.path ≠ some (calculate_file_hash e.stat)) ∧
    ((entryUpsert db e t).2 = true →
      (entryUpsert db e t).1 =
        insertOrReplace db ⟨e.path, [], [], [], t, calculate_file_hash e.stat⟩) := by
  refine ⟨by rw [hdoc]; rfl, crawl_cons e fs db t, ?_, ?_⟩
  · exact update_wrote_iff db e.path _ _ t
  · intro hw
    have hmd : extract_metadata e.doc = emptyMetadata := by rw [hdoc]; rfl
    have hw2 : (update_or_insert_page db e.path emptyMetadata
        (calculate_file_hash e.stat) t).2 = true := by
      rw [← hmd]; exact hw
    have h := update_writes_row db e.path emptyMetadata
      (calculate_file_hash e.stat) t hw2
    show (update_or_insert_page db e.path (extract_metadata e.doc)
      (calculate_file_hash e.stat) t).1 = _
    rw [hmd]
    exact h

/-- Witness for C4 amended: one failing page followed by one healthy page;
both are crawled, the failing one is written with empty metadata. -/
theorem C4_extraction_failure_handling_witness :
    extract_metadata ((⟨['p'], none, some ⟨1, 2⟩⟩ : FsEntry).doc) = emptyMetadata ∧
    ((entryUpsert [] ⟨['p'], none, some ⟨1, 2⟩⟩ 5).2 = true ↔
      lookupHash [] ['p'] ≠ some (calculate_file_hash (some ⟨1, 2⟩))) := by
  have h := C4_extraction_failure_handling []
    ⟨['p'], none, some ⟨1, 2⟩⟩ [⟨['q'], none, none⟩] 5 rfl
  exact ⟨h.1, h.2.2.1⟩

/-- C5 counterexample: with interval 300 starting at time 0 and a first
crawl lasting 10, the second crawl starts at 300 — the interval measured
from the first crawl's START — not at 310, which an end-measured wait
would give. -/
theorem C5_counterexample :
    (schedule 0 300 (fun _ => 10) 1).1 = 300 ∧
    (schedule 0 300 (fun _ => 10) 0).2 + 300 = 310 ∧ (300 : Nat) ≠ 310 := by
  decide

/-- C5 amended: in the scheduler loop two crawls never overlap (each crawl
starts no earlier than the previous one ends), but the wait is measured
from the previous crawl's START: the next crawl begins at
`max (previous end) (previous start + interval)`. -/
theorem C5_schedule_no_overlap (t0 interval : Nat) (dur : Nat → Nat) (n : Nat) :
    (schedule t0 interval dur n).2 ≤ (schedule t0 interval dur (n + 1)).1 ∧
    (schedule t0 interval dur (n + 1)).1 =
      max (schedule t0 interval dur n).2 ((schedule t0 interval dur n).1 + interval) := by
  refine ⟨?_, rfl⟩
  show (schedule t0 interval dur n).2 ≤
    max (schedule t0 interval dur n).2 ((schedule t0 interval dur n).1 + interval)
  exact le_max_left _ _

theorem dropWhile_ws_eq_self (l : Str)
    (h : ∀ c, l.head? = some c → c.isWhitespace = false) :
    l.dropWhile Char.isWhitespace = l := by
  cases l with
  | nil => rfl
  | cons c rest =>
    rw [List.dropWhile_cons, h c rfl]
    simp

theorem pystrip_eq_self (l : Str)
    (h1 : ∀ c, l.head? = some c → c.isWhitespace = false)
    (h2 : ∀ c, l.getLast? = some c → c.isWhitespace = false) :
    pystrip l = l := by
  unfold pystrip
  rw [dropWhile_ws_eq_self l h1]
  have hB : l.reverse.dropWhile Char.isWhitespace = l.reverse := by
    apply dropWhile_ws_eq_self
    intro c hc
    rw [List.head?_reverse] at hc
    exact h2 c hc
  rw [hB, List.reverse_reverse]

set_option maxRecDepth 4000 in
/-- C6 counterexample: markup with no meta description and a first
paragraph of exactly 200 characters beginning with a space yields a
description of 119 characters, not 120 — the final `.strip()` removes the
leading space that survived the `[:117] + '...'` truncation. -/
theorem C6_counterexample :
    (' ' :: List.replicate 199 'a').length = 200 ∧
    (extract_metadata (some ⟨none, none, none, none,
      some (' ' :: List.replicate 199 'a')⟩)).description.length = 119 ∧
    ¬ (extract_metadata (some ⟨none, none, none, none,
      some (' ' :: List.replicate 199 'a')⟩)).description.length = 120 := by
  decide

/-- C6 amended: with no meta description element and a first paragraph of
200 characters, the description is exactly the paragraph's first 117
characters plus the three-character ellipsis (120 characters in all),
PROVIDED the paragraph's text does not begin with whitespace, the keywords
meta tag (when present) has a content attribute, and the document does not
pair a `None`-string title element with a missing h1 (which would crash
extraction and yield the all-empty triple). -/
theorem C6_fallback_truncation (s : Soup) (p : Str)
    (hdesc : s.metaDesc = none)
    (hkw : s.metaKeywords ≠ some none)
    (htitle : ¬(s.title = some none ∧ s.h1 = none))
    (hp : s.firstP = some p)
    (hlen : p.length = 200)
    (hhead : ∀ c, p.head? = some c → c.isWhitespace = false) :
    (extract_metadata (some s)).description = p.take 117 ++ ellipsis ∧
    (extract_metadata (some s)).description.length = 120 := by
  have hps : pystrip (p.take 117 ++ ellipsis) = p.take 117 ++ ellipsis := by
    apply pystrip_eq_self
    · intro c hc
      cases p with
      | nil => simp at hlen
      | cons d rest =>
        rw [show (117 : Nat) = 116 + 1 from rfl, List.take_succ_cons] at hc
        simp only [List.cons_append, List.head?_cons, Option.some.injEq] at hc
        rw [← hc]
        exact hhead d rfl
    · intro c hc
      rw [show p.take 117 ++ ellipsis = (p.take 117 ++ ['.', '.']) ++ ['.'] by
        simp [ellipsis], List.getLast?_concat] at hc
      rw [show c = '.' from (Option.some.injEq _ _).mp hc.symm]
      decide
  obtain ⟨st, sd, sk, sh, sp⟩ := s
  dsimp only at hdesc hkw htitle hp
  subst hdesc hp
  have hdescv : (extract_metadata (some ⟨st, none, sk, sh, some p⟩)).description =
      pystrip (p.take 117 ++ ellipsis) := by
    rcases sk with _ | (_ | k)
    · rcases sh with _ | h
      · rcases st with _ | (_ | ts)
        · simp [extract_metadata, extractCore, contentAttr, hlen]
        · exact absurd ⟨rfl, rfl⟩ htitle
        · simp [extract_metadata, extractCore, contentAttr, hlen]
      · simp [extract_metadata, extractCore, contentAttr, hlen]
    · exact absurd rfl hkw
    · rcases sh with _ | h
      · rcases st with _ | (_ | ts)
        · simp [extract_metadata, extractCore, contentAttr, hlen]
        · exact absurd ⟨rfl, rfl⟩ htitle
        · simp [extract_metadata, extractCore, contentAttr, hlen]
      · simp [extract_metadata, extractCore, contentAttr, hlen]
  rw [hdescv, hps]
  refine ⟨rfl, ?_⟩
  simp [List.length_append, List.length_take, hlen, ellipsis]

set_option maxRecDepth 4000 in
/-- Witness for C6 amended: a 200-character paragraph of letters yields
the 120-character truncated description. -/
theorem C6_fallback_truncation_witness :
    (extract_metadata (some ⟨none, none, none, none,
      some (List.replicate 200 'a')⟩)).description =
      (List.replicate 200 'a').take 117 ++ ellipsis ∧
    (extract_metadata (some ⟨none, none, none, none,
      some (List.replicate 200 'a')⟩)).description.length = 120 := by
  refine C6_fallback_truncation _ _ rfl (by simp) (by simp) rfl (by simp) ?_
  intro c hc
  rw [show (List.replicate 200 'a').head? = some 'a' from rfl] at hc
  rw [show c = 'a' from (Option.some.injEq _ _).mp hc.symm]
  decide

/-- C7 counterexample: markup with a non-empty meta description AND a
non-empty first paragraph, but whose title element has no string content,
returns the all-empty triple — the `None` title crashes `title.strip()` on
the way out — so the meta tag's content is NOT returned. -/
theorem C7_counterexample :
    extract_metadata (some ⟨some none, some (some ['D']), none, none, some ['P']⟩) =
      emptyMetadata ∧
    (extract_metadata (some ⟨some none, some (some ['D']), none, none,
      some ['P']⟩)).description ≠ ['D'] := by
  decide

set_option linter.unusedVariables false in
/-- C7 amended: with a non-empty meta description content and a non-empty
first paragraph, the extractor returns the meta tag's (trimmed) content as
the description and never applies the fallback — the parsed title and
keywords are returned (trimmed), not overwritten — PROVIDED the title
element, when present, has string content, and the keywords meta tag, when
present, has a content attribute (otherwise extraction crashes to the
all-empty triple). -/
theorem C7_meta_description_wins (s : Soup) (d pp : Str)
    (hd : s.metaDesc = some (some d)) (hdne : d ≠ [])
    (hp : s.firstP = some pp) (hpne : pp ≠ [])
    (ht : s.title ≠ some none) (hk : s.metaKeywords ≠ some none) :
    extract_metadata (some s) =
      ⟨pystrip (parsedTitle s), pystrip d, pystrip (parsedKeywords s)⟩ := by
  obtain ⟨st, sd, sk, sh, sp⟩ := s
  dsimp only at hd hp ht hk
  subst hd hp
  rcases st with _ | (_ | ts)
  · rcases sk with _ | (_ | k)
    · simp [extract_metadata, extractCore, contentAttr, parsedTitle, parsedKeywords, hdne]
    · exact absurd rfl hk
    · simp [extract_metadata, extractCore, contentAttr, parsedTitle, parsedKeywords, hdne]
  · exact absurd rfl ht
  · rcases sk with _ | (_ | k)
    · simp [extract_metadata, extractCore, contentAttr, parsedTitle, parsedKeywords, hdne]
    · exact absurd rfl hk
    · simp [extract_metadata, extractCore, contentAttr, parsedTitle, parsedKeywords, hdne]

/-- Witness for C7 amended: meta description content with surrounding
whitespace wins over the paragraph and comes back trimmed. -/
theorem C7_meta_description_wins_witness :
    extract_metadata (some ⟨some (some ['T']), some (some ['D', ' ']), none,
      some ['H'], some ['P']⟩) =
      ⟨pystrip (parsedTitle ⟨some (some ['T']), some (some ['D', ' ']), none,
        some ['H'], some ['P']⟩), pystrip ['D', ' '],
       pystrip (parsedKeywords ⟨some (some ['T']), some (some ['D', ' ']), none,
        some ['H'], some ['P']⟩)⟩ :=
  C7_meta_description_wins _ ['D', ' '] ['P'] rfl (by decide) rfl (by decide)
    (by decide) (by decide)

/-- C10 counterexample: a document whose title element has no string
content, but with an empty description and an h1 present, does NOT return
the all-empty triple: the fallback replaces the `None` title with the h1
text before `.strip()` is reached, and the meta keywords survive. -/
theorem C10_counterexample :
    extract_metadata (some ⟨some none, none, some (some ['k', 'w']),
      some ['H'], none⟩) = ⟨['H'], [], ['k', 'w']⟩ ∧
    extract_metadata (some ⟨some none, none, some (some ['k', 'w']),
      some ['H'], none⟩) ≠ emptyMetadata := by
  decide

/-- C10 amended: when the parsed title element has no single string
content, the extractor returns the all-empty triple exactly in the cases
where the `None` title survives to the final `.strip()` (non-empty or
crashing meta description content, crashing keywords lookup, or no h1
element); but when the description is empty and an h1 exists, the fallback
replaces the `None` title and extraction returns normally — the meta
keywords are NOT discarded. -/
theorem C10_none_title_behavior (s : Soup) (hst : s.title = some none) :
    ((contentAttr s.metaDesc ≠ some [] ∨ contentAttr s.metaKeywords = none ∨
        s.h1 = none) →
      extract_metadata (some s) = emptyMetadata) ∧
    (∀ h kw, s.h1 = some h → contentAttr s.metaDesc = some [] →
      contentAttr s.metaKeywords = some kw →
      extract_metadata (some s) =
        ⟨pystrip h, pystrip (fallbackDescription s.firstP), pystrip kw⟩) := by
  obtain ⟨st, sd, sk, sh, sp⟩ := s
  dsimp only at hst
  subst hst
  constructor
  · intro hcase
    rcases sd with _ | (_ | d)
    · rcases hcase with hne | hkerr | hh
      · exact absurd rfl hne
      · rcases sk with _ | (_ | k)
        · simp [contentAttr] at hkerr
        · simp [extract_metadata, extractCore, contentAttr]
        · simp [contentAttr] at hkerr
      · subst hh
        rcases sk with _ | (_ | k)
        · rcases sp with _ | p <;>
            simp [extract_metadata, extractCore, contentAttr]
        · simp [extract_metadata, extractCore, contentAttr]
        · rcases sp with _ | p <;>
            simp [extract_metadata, extractCore, contentAttr]
    · simp [extract_metadata, extractCore, contentAttr]
    · by_cases hd0 : d = []
      · subst hd0
        rcases hcase with hne | hkerr | hh
        · exact absurd rfl hne
        · rcases sk with _ | (_ | k)
          · simp [contentAttr] at hkerr
          · simp [extract_metadata, extractCore, contentAttr]
          · simp [contentAttr] at hkerr
        · subst hh
          rcases sk with _ | (_ | k)
          · rcases sp with _ | p <;>
              simp [extract_metadata, extractCore, contentAttr]
          · simp [extract_metadata, extractCore, contentAttr]
          · rcases sp with _ | p <;>
              simp [extract_metadata, extractCore, contentAttr]
      · rcases sk with _ | (_ | k)
        · simp [extract_metadata, extractCore, contentAttr, hd0]
        · simp [extract_metadata, extractCore, contentAttr]
        · simp [extract_metadata, extractCore, contentAttr, hd0]
  · intro h kw hh hdesc hkw
    subst hh
    rcases sd with _ | (_ | d)
    · rcases sk with _ | (_ | k)
      · simp [contentAttr] at hkw
        subst hkw
        rcases sp with _ | p <;>
          simp [extract_metadata, extractCore, contentAttr, fallbackDescription]
      · simp [contentAttr] at hkw
      · simp [contentAttr] at hkw
        subst hkw
        rcases sp with _ | p <;>
          simp [extract_metadata, extractCore, contentAttr, fallbackDescription]
    · simp [contentAttr] at hdesc
    · simp [contentAttr] at hdesc
      subst hdesc
      rcases sk with _ | (_ | k)
      · simp [contentAttr] at hkw
        subst hkw
        rcases sp with _ | p <;>
          simp [extract_metadata, extractCore, contentAttr, fallbackDescription]
      · simp [contentAttr] at hkw
      · simp [contentAttr] at hkw
        subst hkw
        rcases sp with _ | p <;>
          simp [extract_metadata, extractCore, contentAttr, fallbackDescription]

/-- Witness for C10 amended: a non-empty meta description with a
`None`-string title crashes to the all-empty triple. -/
theorem C10_none_title_behavior_witness :
    extract_metadata (some ⟨some none, some (some ['D']), none, none,
      some ['P']⟩) = emptyMetadata :=
  (C10_none_title_behavior _ rfl).1 (Or.inl (by decide))

theorem insertByTitle_length (r : Row) (l : List Row) :
    (insertByTitle r l).length = l.length + 1 := by
  induction l with
  | nil => rfl
  | cons q rest ih =>
    unfold insertByTitle
    by_cases h : strLe r.title q.title = true
    · simp [h]
    · simp [h, ih]

theorem sortByTitle_length (l : List Row) :
    (sortByTitle l).length = l.length := by
  induction l with
  | nil => rfl
  | cons r rest ih =>
    show (insertByTitle r (sortByTitle rest)).length = rest.length + 1
    rw [insertByTitle_length, ih]

/-- C8. For `N` the number of matching records: `total_records` reports
`N`; `total_pages` is `ceil(N / 30)` (characterized by the two defining
inequalities); at most 30 records are returned; and a requested page
beyond the total page count yields zero records while the reported totals
are unchanged (they are computed before pagination). -/
theorem C8_pagination (db : Db) (qRaw pageStr : Str) :
    (search db qRaw pageStr).total_records =
      (searchMatching db (pystrip qRaw)).length ∧
    (search db qRaw pageStr).total_records ≤
      30 * (search db qRaw pageStr).total_pages ∧
    30 * (search db qRaw pageStr).total_pages <
      (search db qRaw pageStr).total_records + 30 ∧
    (search db qRaw pageStr).results.length ≤ 30 ∧
    ((search db qRaw pageStr).page > ((search db qRaw pageStr).total_pages : Int) →
      (search db qRaw pageStr).results = []) := by
  have hTP : (search db qRaw pageStr).total_pages =
      ((searchMatching db (pystrip qRaw)).length + 29) / 30 := rfl
  have hRes : (search db qRaw pageStr).results =
      pageRows (searchMatching db (pystrip qRaw))
        (((pyInt pageStr).getD 1 - 1) * 30) := rfl
  refine ⟨rfl, ?_, ?_, ?_, ?_⟩
  · rw [hTP]; show (searchMatching db (pystrip qRaw)).length ≤ _; omega
  · rw [hTP]; show _ < (searchMatching db (pystrip qRaw)).length + 30; omega
  · rw [hRes]
    unfold pageRows
    rw [List.length_map, List.length_take]
    exact min_le_left _ _
  · intro hpg
    rw [hTP] at hpg
    have hpg2 : ((pyInt pageStr).getD 1) >
        ((((searchMatching db (pystrip qRaw)).length + 29) / 30 : Nat) : Int) := hpg
    rw [hRes]
    have hlen : (sortByTitle (searchMatching db (pystrip qRaw))).length ≤
        (((pyInt pageStr).getD 1 - 1) * 30).toNat := by
      rw [sortByTitle_length]
      omega
    unfold pageRows
    rw [List.drop_eq_nil_of_le hlen]
    rfl

/-- Witness for C8: one record, requested page 5 is past the single total
page, so no records come back. -/
theorem C8_pagination_witness :
    (search [⟨['p'], ['B'], [], [], 0, ['h']⟩] [] ['5']).page >
      ((search [⟨['p'], ['B'], [], [], 0, ['h']⟩] [] ['5']).total_pages : Int) ∧
    (search [⟨['p'], ['B'], [], [], 0, ['h']⟩] [] ['5']).results = [] := by
  have h := C8_pagination [⟨['p'], ['B'], [], [], 0, ['h']⟩] [] ['5']
  have hgt : (search [⟨['p'], ['B'], [], [], 0, ['h']⟩] [] ['5']).page >
      ((search [⟨['p'], ['B'], [], [], 0, ['h']⟩] [] ['5']).total_pages : Int) := by
    decide
  exact ⟨hgt, h.2.2.2.2 hgt⟩

/-- C9 counterexample: a page parameter of `0` is NOT fully treated as
page 1 — the rendered page number stays 0 (the response differs from the
page-1 response), even though the records returned are those of the first
page. -/
theorem C9_counterexample :
    (search [] [] ['0']).page = 0 ∧ (search [] [] ['1']).page = 1 ∧
    search [] [] ['0'] ≠ search [] [] ['1'] := by decide

/-- C9 amended: a non-numeric page parameter is parsed to the default 1
and the whole response equals the page-1 response; a numeric non-positive
page keeps its value in the response's page field, but the returned
records are still those of the first page, because SQLite clamps the
negative OFFSET to zero. -/
theorem C9_page_defaulting (db : Db) (qRaw pageStr : Str) :
    (pyInt pageStr = none → search db qRaw pageStr = search db qRaw ['1']) ∧
    (∀ p : Int, pyInt pageStr = some p → p ≤ 0 →
      (search db qRaw pageStr).results = (search db qRaw ['1']).results ∧
      (search db qRaw pageStr).page = p) := by
  constructor
  · intro hnone
    unfold search
    rw [hnone]
    rfl
  · intro p hp hple
    constructor
    · show pageRows (searchMatching db (pystrip qRaw))
          (((pyInt pageStr).getD 1 - 1) * 30) =
        pageRows (searchMatching db (pystrip qRaw))
          (((pyInt ['1']).getD 1 - 1) * 30)
      rw [hp, show (pyInt ['1']).getD 1 = 1 from rfl]
      unfold pageRows
      simp only [Option.getD_some]
      have hz : (((p : Int) - 1) * 30).toNat = 0 := by omega
      rw [hz]
      rfl
    · show (pyInt pageStr).getD 1 = p
      rw [hp]
      rfl

/-- Witness for C9 amended: a non-numeric page gives the page-1 response;
page `-2` over a one-record table returns the first page's records. -/
theorem C9_page_defaulting_witness :
    search [⟨['p'], ['B'], [], [], 0, ['h']⟩] [] ['x'] =
      search [⟨['p'], ['B'], [], [], 0, ['h']⟩] [] ['1'] ∧
    (search [⟨['p'], ['B'], [], [], 0, ['h']⟩] [] ['-', '2']).results =
      (search [⟨['p'], ['B'], [], [], 0, ['h']⟩] [] ['1']).results := by
  refine ⟨(C9_page_defaulting _ _ ['x']).1 (by decide),
    ((C9_page_defaulting _ _ ['-', '2']).2 (-2) (by decide) (by decide)).1⟩
